import Mathlib

/-!
Verification of the permission-grant reconciliation logic of
`client/app/components/PermissionsEditorDialog/index.jsx`.

The JavaScript values flowing through the component are modelled by a small
inductive type `JVal`.  Pure functions of the component
(`normalizePermissionsShape`, `userHasPermission`, `availableGroups`), the
state update performed by `loadAll`, the action traces of the grant/revoke
operations and the debounced user search are translated into executable Lean
definitions, and the spec-level properties are proved about them.
-/

namespace PermissionsEditor

/-- Model of a JavaScript value as it appears in the component: `null`,
`undefined`, booleans, (integer) numbers, strings, arrays and plain objects
(association lists of string keys). -/
inductive JVal where
  | jnull
  | jundefined
  | jbool (b : Bool)
  | jnum (n : Int)
  | jstr (s : String)
  | jarr (elems : List JVal)
  | jobj (fields : List (String × JVal))

/-- JavaScript truthiness (`!v` in the source is `!jTruthy v` here): `null`,
`undefined`, `false`, `0` and `""` are falsy; arrays and objects are always
truthy. -/
def jTruthy : JVal → Bool
  | .jnull => false
  | .jundefined => false
  | .jbool b => b
  | .jnum n => n != 0
  | .jstr s => s != ""
  | .jarr _ => true
  | .jobj _ => true

/-- `typeof v === "object"`: true for `null`, arrays and objects. -/
def typeofIsObject : JVal → Bool
  | .jnull => true
  | .jarr _ => true
  | .jobj _ => true
  | _ => false

/-- Property access `v[k]`: a missing key, or access on a non-object, yields
`undefined` (the component only reads string-keyed properties off values for
which this is the JavaScript behaviour). -/
def getField : JVal → String → JVal
  | .jobj fields, k =>
    match fields.find? (fun p => p.1 == k) with
    | some p => p.2
    | none => .jundefined
  | _, _ => .jundefined

/-- `Array.isArray(v) ? v : []` — the defensive array extraction used by
`normalizePermissionsShape` for the `users` / `groups` fields. -/
def asArray : JVal → List JVal
  | .jarr xs => xs
  | _ => []

/-- Strict equality `===` restricted to primitive values; on two objects or
arrays it returns `false` (JavaScript compares those by reference; the ids the
component compares are primitives, for which `===` is structural). The same
function models the SameValueZero comparison used by lodash `find` shorthand
matching and by `Set.prototype.has` (we do not model `NaN` or `-0`). -/
def jStrictEq : JVal → JVal → Bool
  | .jnull, .jnull => true
  | .jundefined, .jundefined => true
  | .jbool a, .jbool b => a == b
  | .jnum a, .jnum b => a == b
  | .jstr a, .jstr b => a == b
  | _, _ => false

/-- One access category of the normalized grant set:
`{ users: [...], groups: [...] }`. -/
structure AccessList where
  users : List JVal
  groups : List JVal

/-- The normalized permissions snapshot
`{ view: AccessList, modify: AccessList }`. -/
structure GrantSet where
  view : AccessList
  modify : AccessList

/-- The all-empty access list `{ users: [], groups: [] }`. -/
def emptyAccessList : AccessList := ⟨[], []⟩

/-- The all-empty grant set — the `out` initializer of
`normalizePermissionsShape`. -/
def emptyGrantSet : GrantSet := ⟨emptyAccessList, emptyAccessList⟩

/-- The per-category body of `normalizePermissionsShape`:
`if (!val) return;` leaves the defaults; an array becomes the `users` list
(legacy shape); an object has `users` / `groups` extracted defensively; any
other truthy value leaves the defaults. -/
def normalizeCategory (val : JVal) : AccessList :=
  if !jTruthy val then emptyAccessList
  else
    match val with
    | .jarr xs => ⟨xs, []⟩
    | .jobj _ => ⟨asArray (getField val "users"), asArray (getField val "groups")⟩
    | _ => emptyAccessList

/-- `normalizePermissionsShape(data)` from the source: returns the all-empty
grant set when `data` is falsy or not of object type, otherwise normalizes the
`view` and `modify` keys independently. -/
def normalizePermissionsShape (data : JVal) : GrantSet :=
  if !jTruthy data || !typeofIsObject data then emptyGrantSet
  else
    ⟨normalizeCategory (getField data "view"),
     normalizeCategory (getField data "modify")⟩

/-- The canonical wire form of an access list:
`{ users: [...], groups: [...] }`. -/
def encodeAccessList (al : AccessList) : JVal :=
  .jobj [("users", .jarr al.users), ("groups", .jarr al.groups)]

/-- The canonical ("current shape") wire form of a grant set:
`{ view: {users, groups}, modify: {users, groups} }`. -/
def encodeGrantSet (g : GrantSet) : JVal :=
  .jobj [("view", encodeAccessList g.view), ("modify", encodeAccessList g.modify)]

/-- The two access categories, `ACCESS_TYPES = ["view", "modify"]` in the
source. -/
inductive AccessType where
  | view
  | modify

/-- The wire string of an access type. -/
def AccessType.toWire : AccessType → String
  | .view => "view"
  | .modify => "modify"

/-- `grants[type]` — category lookup on a grant set. -/
def GrantSet.at (g : GrantSet) : AccessType → AccessList
  | .view => g.view
  | .modify => g.modify

/-- lodash `find(list, {id: idv})` followed by the component's use of it:
returns the first element whose `id` property equals `idv`
(SameValueZero on the primitive ids the component uses), or `undefined`. -/
def findById (list : List JVal) (idv : JVal) : JVal :=
  match list.find? (fun w => jStrictEq (getField w "id") idv) with
  | some w => w
  | none => .jundefined

/-- `userHasPermission(u, type)` from the source:
`u.id === author.id || !!get(find(grants[type].users, { id: u.id }), "id")`. -/
def userHasPermission (author : JVal) (grants : GrantSet) (u : JVal)
    (ty : AccessType) : Bool :=
  jStrictEq (getField u "id") (getField author "id")
    || jTruthy (getField (findById (grants.at ty).users (getField u "id")) "id")

/-- The option filter of the user search for one category
(`users.filter(shouldShowUser)` in `UserSelect`, with
`shouldShowUser = u => !userHasPermission(u, type)` from `UserGrants`). -/
def offeredUsers (author : JVal) (grants : GrantSet) (ty : AccessType)
    (users : List JVal) : List JVal :=
  users.filter (fun u => !userHasPermission author grants u ty)

/-- `availableGroups` from the source: the full group directory minus every
group whose id is in the set
`{...grants.view.groups.map(g => g.id), ...grants.modify.groups.map(g => g.id)}`
(`Set.prototype.has` modelled with SameValueZero on the ids). -/
def availableGroups (allGroups : List JVal) (grants : GrantSet) : List JVal :=
  let grantedIds :=
    grants.view.groups.map (fun g => getField g "id")
      ++ grants.modify.groups.map (fun g => getField g "id")
  allGroups.filter (fun g => !grantedIds.any (fun i => jStrictEq i (getField g "id")))

/-- Component state owned by the dialog: `loading`, `grants`, `allGroups`. -/
structure CompState where
  loading : Bool
  grants : GrantSet
  allGroups : JVal

/-- Initial state of the dialog: loading, empty grants, no groups. -/
def initialState : CompState :=
  ⟨true, emptyGrantSet, .jarr []⟩

/-- The group-list post-processing of `listAllGroups`:
`res => (Array.isArray(res) ? res : res.results || [])`; a rejected request is
caught and becomes `[]`. -/
def parseGroupsResponse : Except Unit JVal → JVal
  | .error _ => .jarr []
  | .ok v =>
    match v with
    | .jarr _ => v
    | _ =>
      let r := getField v "results"
      if jTruthy r then r else .jarr []

/-- The state after one completed `loadAll()` run, given the outcome of the
two fetches: the permission GET is guarded by `.catch(() => ({}))`, so a
failure becomes the `{}` fallback; the result is normalized into `grants`;
the group fetch is stored via `parseGroupsResponse`; `finally` clears
`loading`.  (The outer `.catch` of `loadAll` is unreachable because both
joined promises already carry their own catch handlers.) -/
def loadAllRun (s : CompState) (permFetch groupsFetch : Except Unit JVal) : CompState :=
  let perm :=
    match permFetch with
    | .ok v => v
    | .error _ => .jobj []
  { s with
    loading := false
    grants := normalizePermissionsShape perm
    allGroups := parseGroupsResponse groupsFetch }

/-- Observable actions of a grant/revoke operation.  `setGrantsLocal` is a
local in-place mutation of the grants state; it never occurs in any trace the
component produces (the only state change goes through `runLoadAll`). -/
inductive UIAction where
  | httpPost (body : JVal)
  | httpDelete (body : JVal)
  | runLoadAll
  | notifyError (msg : String)
  | setGrantsLocal (g : GrantSet)

/-- Discriminator: is the action a `loadAll()` invocation? -/
def UIAction.isRunLoadAll : UIAction → Bool
  | .runLoadAll => true
  | _ => false

/-- Discriminator: is the action an error notification? -/
def UIAction.isNotify : UIAction → Bool
  | .notifyError _ => true
  | _ => false

/-- Discriminator: is the action an HTTP mutation request? -/
def UIAction.isHttp : UIAction → Bool
  | .httpPost _ => true
  | .httpDelete _ => true
  | _ => false

/-- Discriminator: is the action a direct local mutation of the grants
state? -/
def UIAction.isLocalGrantsMutation : UIAction → Bool
  | .setGrantsLocal _ => true
  | _ => false

/-- Request body `{access_type: accessType, user_id: userId}`. -/
def userBody (ty : AccessType) (userId : Int) : JVal :=
  .jobj [("access_type", .jstr ty.toWire), ("user_id", .jnum userId)]

/-- Request body `{access_type: accessType, group_id: groupId}`. -/
def groupBody (ty : AccessType) (groupId : Int) : JVal :=
  .jobj [("access_type", .jstr ty.toWire), ("group_id", .jnum groupId)]

/-- Trace of `grantUser(accessType, userId)`: one POST; on success `.then`
runs `loadAll`, on failure `.catch` reports the user-specific error. -/
def grantUserOp (ty : AccessType) (userId : Int) (requestSucceeds : Bool) :
    List UIAction :=
  .httpPost (userBody ty userId) ::
    (if requestSucceeds then [.runLoadAll]
     else [.notifyError "Could not grant permission to the user"])

/-- Trace of `revokeUser(accessType, userId)`: one DELETE; then `loadAll` on
success or the user-specific removal error on failure. -/
def revokeUserOp (ty : AccessType) (userId : Int) (requestSucceeds : Bool) :
    List UIAction :=
  .httpDelete (userBody ty userId) ::
    (if requestSucceeds then [.runLoadAll]
     else [.notifyError "Could not remove permission from the user"])

/-- Trace of `grantGroup(accessType, groupId)`. -/
def grantGroupOp (ty : AccessType) (groupId : Int) (requestSucceeds : Bool) :
    List UIAction :=
  .httpPost (groupBody ty groupId) ::
    (if requestSucceeds then [.runLoadAll]
     else [.notifyError "Could not grant permission to the group"])

/-- Trace of `revokeGroup(accessType, groupId)`. -/
def revokeGroupOp (ty : AccessType) (groupId : Int) (requestSucceeds : Bool) :
    List UIAction :=
  .httpDelete (groupBody ty groupId) ::
    (if requestSucceeds then [.runLoadAll]
     else [.notifyError "Could not remove permission from the group"])

/-- Outcome of the two fetches a `loadAll` run performs. -/
structure LoadEnv where
  perm : Except Unit JVal
  groups : Except Unit JVal

/-- Effect of one action on the component state: only `runLoadAll` and
`setGrantsLocal` touch state; HTTP requests and notifications do not. -/
def applyAction (env : LoadEnv) (s : CompState) : UIAction → CompState
  | .runLoadAll => loadAllRun s env.perm env.groups
  | .setGrantsLocal g => { s with grants := g }
  | _ => s

/-- Effect of a whole action trace on the component state. -/
def applyTrace (env : LoadEnv) (s : CompState) (as : List UIAction) : CompState :=
  as.foldl (applyAction env) s

/-- `DEBOUNCE_SEARCH_DURATION` from the source. -/
def DEBOUNCE_SEARCH_DURATION : Nat := 200

/-- Modelled from the spec: lodash `debounce` (an external library import, not
part of `src/`) as used by `debouncedSearchUsers` — "each keystroke schedules
a lookup no sooner than a fixed quiet interval after the last keystroke;
superseding keystrokes cancel the pending scheduled lookup".  Given the
time-stamped keystroke terms in order, an entry's lookup fires exactly when no
later keystroke arrives strictly within `wait` time units of it; the fired
search terms are returned in order. -/
def debounceFires (wait : Nat) : List (Nat × String) → List String
  | [] => []
  | [p] => [p.2]
  | p :: q :: rest =>
    if q.1 < p.1 + wait then debounceFires wait (q :: rest)
    else p.2 :: debounceFires wait (q :: rest)

/-- The search calls `debouncedSearchUsers` actually issues for a keystroke
sequence, using the source's `DEBOUNCE_SEARCH_DURATION`. -/
def issuedSearchCalls (events : List (Nat × String)) : List String :=
  debounceFires DEBOUNCE_SEARCH_DURATION events

/-- Every consecutive pair of keystrokes is strictly within the quiet
interval. -/
def withinQuiet (wait : Nat) : List (Nat × String) → Bool
  | p :: q :: rest => (q.1 < p.1 + wait) && withinQuiet wait (q :: rest)
  | _ => true

/-- The last search term of a keystroke sequence. -/
def lastTerm : List (Nat × String) → String
  | [] => ""
  | [p] => p.2
  | _ :: rest => lastTerm rest

/-- A user object with the falsy id 0. -/
def userIdZero : JVal := .jobj [("id", .jnum 0)]

/-- A user object with id 7. -/
def userIdSeven : JVal := .jobj [("id", .jnum 7)]

/-- An author object with id 1. -/
def authorIdOne : JVal := .jobj [("id", .jnum 1)]

/-- A grant set whose view users list contains exactly the id-0 user. -/
def grantsWithUserZero : GrantSet := ⟨⟨[userIdZero], []⟩, emptyAccessList⟩

/-- A grant set whose view users list contains exactly the id-7 user. -/
def grantsWithUserSeven : GrantSet := ⟨⟨[userIdSeven], []⟩, emptyAccessList⟩

/-- A group object with id 5. -/
def groupIdFive : JVal := .jobj [("id", .jnum 5)]

/-- A group object with id 9. -/
def groupIdNine : JVal := .jobj [("id", .jnum 9)]

/-- A grant set granting exactly the id-5 group under view. -/
def grantsGroupFiveView : GrantSet := ⟨⟨[], [groupIdFive]⟩, emptyAccessList⟩

/-- A current-shape server payload whose modify users list contains exactly
the id-7 user. -/
def permWithUserSeven : JVal :=
  .jobj [("view", .jarr []),
         ("modify", .jobj [("users", .jarr [userIdSeven]), ("groups", .jarr [])])]

/-! ## Helper lemmas -/

theorem normalizeCategory_jarr (xs : List JVal) :
    normalizeCategory (.jarr xs) = ⟨xs, []⟩ := rfl

theorem normalizeCategory_jundefined :
    normalizeCategory .jundefined = emptyAccessList := rfl

theorem jStrictEq_eq_of_true {a b : JVal} (h : jStrictEq a b = true) : a = b := by
  cases a <;> cases b <;> simp_all [jStrictEq]

theorem norm_jobj_unfold (fs : List (String × JVal)) :
    normalizePermissionsShape (JVal.jobj fs) =
      ⟨normalizeCategory (getField (JVal.jobj fs) "view"),
       normalizeCategory (getField (JVal.jobj fs) "modify")⟩ := rfl

/-! ## Claims C1 - C3: normalization -/

/-- C1. Legacy compatibility: for every payload that is a truthy object whose
`view` and `modify` values are arrays, `normalizePermissionsShape` treats each
array as that category's `users` list (in order) and leaves both `groups`
lists empty. -/
theorem claim_C1_legacy_arrays_become_users (data : JVal) (us ms : List JVal)
    (htr : jTruthy data = true) (hobj : typeofIsObject data = true)
    (hv : getField data "view" = .jarr us) (hm : getField data "modify" = .jarr ms) :
    normalizePermissionsShape data = ⟨⟨us, []⟩, ⟨ms, []⟩⟩ := by
  cases data with
  | jobj fs => rw [norm_jobj_unfold, hv, hm, normalizeCategory_jarr, normalizeCategory_jarr]
  | jnull => simp [jTruthy] at htr
  | jundefined => simp [typeofIsObject] at hobj
  | jbool b => simp [typeofIsObject] at hobj
  | jnum n => simp [typeofIsObject] at hobj
  | jstr s => simp [typeofIsObject] at hobj
  | jarr es => simp [getField] at hv

/-- Witness for C1 at the spec's concrete example
`{view: [u1, u2], modify: []}`. -/
theorem claim_C1_witness :
    normalizePermissionsShape
        (.jobj [("view", .jarr [.jstr "u1", .jstr "u2"]), ("modify", .jarr [])]) =
      ⟨⟨[.jstr "u1", .jstr "u2"], []⟩, ⟨[], []⟩⟩ :=
  claim_C1_legacy_arrays_become_users _ _ _ rfl rfl rfl rfl

/-- C2. Malformed-input safety: `null`, `undefined` and `{}` all normalize to
the all-empty grant set; more generally any value that is not of object type
normalizes to the all-empty grant set, and an absent (`undefined`) category
key yields the empty access list for that category. -/
theorem claim_C2_malformed_inputs_safe :
    normalizePermissionsShape .jnull = emptyGrantSet ∧
    normalizePermissionsShape .jundefined = emptyGrantSet ∧
    normalizePermissionsShape (.jobj []) = emptyGrantSet ∧
    (∀ d : JVal, typeofIsObject d = false → normalizePermissionsShape d = emptyGrantSet) ∧
    (∀ d : JVal, getField d "view" = .jundefined →
      (normalizePermissionsShape d).view = emptyAccessList) ∧
    (∀ d : JVal, getField d "modify" = .jundefined →
      (normalizePermissionsShape d).modify = emptyAccessList) := by
  refine ⟨rfl, rfl, rfl, ?_, ?_, ?_⟩
  · intro d h
    simp [normalizePermissionsShape, h]
  · intro d h
    cases d with
    | jobj fs =>
      rw [norm_jobj_unfold, h]
      exact normalizeCategory_jundefined
    | jnull => rfl
    | jundefined => rfl
    | jarr es => rfl
    | jbool b => simp [normalizePermissionsShape, typeofIsObject, emptyGrantSet, emptyAccessList]
    | jnum n => simp [normalizePermissionsShape, typeofIsObject, emptyGrantSet, emptyAccessList]
    | jstr s => simp [normalizePermissionsShape, typeofIsObject, emptyGrantSet, emptyAccessList]
  · intro d h
    cases d with
    | jobj fs =>
      rw [norm_jobj_unfold, h]
      exact normalizeCategory_jundefined
    | jnull => rfl
    | jundefined => rfl
    | jarr es => rfl
    | jbool b => simp [normalizePermissionsShape, typeofIsObject, emptyGrantSet, emptyAccessList]
    | jnum n => simp [normalizePermissionsShape, typeofIsObject, emptyGrantSet, emptyAccessList]
    | jstr s => simp [normalizePermissionsShape, typeofIsObject, emptyGrantSet, emptyAccessList]

/-- Witness for C2: a non-object payload (the number 5) normalizes to the
all-empty grant set, and a payload lacking the `view` key gets an empty view
access list. -/
theorem claim_C2_witness :
    normalizePermissionsShape (.jnum 5) = emptyGrantSet ∧
    (normalizePermissionsShape (.jobj [("modify", .jarr [])])).view = emptyAccessList :=
  ⟨claim_C2_malformed_inputs_safe.2.2.2.1 (.jnum 5) rfl,
   claim_C2_malformed_inputs_safe.2.2.2.2.1 (.jobj [("modify", .jarr [])]) rfl⟩

/-- C3. Normalization idempotence: every grant set written in the canonical
current wire shape normalizes back to itself, hence normalization applied
twice to any payload agrees with normalization applied once. -/
theorem claim_C3_normalization_idempotent :
    (∀ g : GrantSet, normalizePermissionsShape (encodeGrantSet g) = g) ∧
    (∀ d : JVal,
      normalizePermissionsShape (encodeGrantSet (normalizePermissionsShape d)) =
        normalizePermissionsShape d) := by
  have h1 : ∀ g : GrantSet, normalizePermissionsShape (encodeGrantSet g) = g := by
    intro g
    obtain ⟨⟨u1, g1⟩, ⟨u2, g2⟩⟩ := g
    rfl
  exact ⟨h1, fun d => h1 _⟩

/-! ## Claims C4 - C6: selection filters -/

/-- C4. Author invariant: whenever a user's id strictly equals the author's
id, `userHasPermission` is true for both access types, whatever the explicit
grant lists contain. -/
theorem claim_C4_author_always_permitted (grants : GrantSet) (author u : JVal)
    (h : jStrictEq (getField u "id") (getField author "id") = true) :
    userHasPermission author grants u .view = true ∧
    userHasPermission author grants u .modify = true := by
  constructor <;> simp [userHasPermission, h]

/-- Witness for C4: the author (id 3) passes both permission checks against
the empty grant set. -/
theorem claim_C4_witness :
    userHasPermission (.jobj [("id", .jnum 3)]) emptyGrantSet
        (.jobj [("id", .jnum 3)]) .view = true ∧
    userHasPermission (.jobj [("id", .jnum 3)]) emptyGrantSet
        (.jobj [("id", .jnum 3)]) .modify = true :=
  claim_C4_author_always_permitted emptyGrantSet _ _ rfl

/-- C5 counterexample: the claim fails for a user whose id is the falsy number
0.  `userHasPermission` ends in `!!get(find(...), "id")`, and `!!0` is false,
so the id-0 user sits in `grants.view.users` yet is still offered by the
view-category search filter. -/
theorem claim_C5_counterexample :
    grantsWithUserZero.view.users = [userIdZero] ∧
    userHasPermission authorIdOne grantsWithUserZero userIdZero .view = false ∧
    offeredUsers authorIdOne grantsWithUserZero .view [userIdZero] = [userIdZero] :=
  ⟨rfl, rfl, rfl⟩

/-- C5 (amended). For every user whose id is a truthy (nonzero) number: if
some entry of `grants[ty].users` carries that id, the user is excluded from
the options offered by that category's user search filter.  (The unamended
claim is false for the falsy id 0, see the counterexample.) -/
theorem claim_C5_granted_users_excluded (author u : JVal) (grants : GrantSet)
    (ty : AccessType) (users : List JVal) (i : Int) (hi : i ≠ 0)
    (hu : getField u "id" = .jnum i)
    (hw : ∃ w ∈ (grants.at ty).users, getField w "id" = .jnum i) :
    u ∉ offeredUsers author grants ty users := by
  intro hmem
  rw [offeredUsers, List.mem_filter] at hmem
  have hperm : userHasPermission author grants u ty = true := by
    unfold userHasPermission
    rw [hu]
    obtain ⟨w, hwmem, hwid⟩ := hw
    have hfind : ((grants.at ty).users.find?
        (fun w => jStrictEq (getField w "id") (.jnum i))).isSome := by
      rw [List.find?_isSome]
      exact ⟨w, hwmem, by rw [hwid]; simp [jStrictEq]⟩
    obtain ⟨w0, hw0⟩ := Option.isSome_iff_exists.mp hfind
    have hp := List.find?_some hw0
    have hid0 : getField w0 "id" = .jnum i := jStrictEq_eq_of_true hp
    have h2 : jTruthy (getField (findById (grants.at ty).users (.jnum i)) "id") = true := by
      unfold findById
      rw [hw0]
      show jTruthy (getField w0 "id") = true
      rw [hid0]
      simp [jTruthy, hi]
    rw [h2, Bool.or_true]
  rw [hperm] at hmem
  simp at hmem

/-- Witness for the amended C5: the id-7 user, granted view access, is not
offered by the view search filter. -/
theorem claim_C5_witness :
    userIdSeven ∉ offeredUsers authorIdOne grantsWithUserSeven .view [userIdSeven] :=
  claim_C5_granted_users_excluded authorIdOne userIdSeven grantsWithUserSeven .view
    [userIdSeven] 7 (by decide) rfl
    ⟨userIdSeven, List.mem_singleton.mpr rfl, rfl⟩

/-- C6. Group cross-category exclusion: membership in `availableGroups` is
exactly membership in the full directory with an id different (under strict
equality) from every granted group id of both categories; consequently no
group in the output can carry the id of a group granted under view, even when
the selection is for a modify grant. -/
theorem claim_C6_group_cross_category_exclusion :
    (∀ (ags : List JVal) (grants : GrantSet) (g : JVal),
      g ∈ availableGroups ags grants ↔
        g ∈ ags ∧
          (∀ w ∈ grants.view.groups,
            jStrictEq (getField w "id") (getField g "id") = false) ∧
          (∀ w ∈ grants.modify.groups,
            jStrictEq (getField w "id") (getField g "id") = false)) ∧
    (∀ (ags : List JVal) (grants : GrantSet) (g : JVal) (i : Int),
      g ∈ grants.view.groups → getField g "id" = .jnum i →
      ∀ h ∈ availableGroups ags grants, getField h "id" ≠ .jnum i) := by
  have hchar : ∀ (ags : List JVal) (grants : GrantSet) (g : JVal),
      g ∈ availableGroups ags grants ↔
        g ∈ ags ∧
          (∀ w ∈ grants.view.groups,
            jStrictEq (getField w "id") (getField g "id") = false) ∧
          (∀ w ∈ grants.modify.groups,
            jStrictEq (getField w "id") (getField g "id") = false) := by
    intro ags grants g
    simp [availableGroups, List.mem_filter, Bool.not_eq_true', List.any_eq_false]
  refine ⟨hchar, ?_⟩
  intro ags grants g i hg hgid h hmem hid
  have hfalse := ((hchar ags grants h).mp hmem).2.1 g hg
  rw [hgid, hid] at hfalse
  simp [jStrictEq] at hfalse

/-- Witness for C6: with the id-5 group granted under view, the id-9 group
survives the filter and indeed does not carry id 5. -/
theorem claim_C6_witness : getField groupIdNine "id" ≠ JVal.jnum 5 :=
  claim_C6_group_cross_category_exclusion.2 [groupIdFive, groupIdNine]
    grantsGroupFiveView groupIdFive 5 (List.mem_singleton.mpr rfl) rfl groupIdNine
    (by rw [show availableGroups [groupIdFive, groupIdNine] grantsGroupFiveView =
          [groupIdNine] from rfl]
        exact List.mem_singleton.mpr rfl)

/-! ## Claims C7 - C9: mutation operations and loadAll -/

/-- C7. Reload after mutation: every successful grant/revoke trace contains
exactly one `loadAll` invocation and no direct local mutation of the grants
state; running the trace leaves the state exactly at the reload result; and
once a reload whose payload lists user 7 under modify completes, the modify
users list is exactly that user. -/
theorem claim_C7_reload_after_mutation :
    ∀ (ty : AccessType) (uid gid : Int) (env : LoadEnv) (s : CompState),
      (grantUserOp ty uid true).countP UIAction.isRunLoadAll = 1 ∧
      (revokeUserOp ty uid true).countP UIAction.isRunLoadAll = 1 ∧
      (grantGroupOp ty gid true).countP UIAction.isRunLoadAll = 1 ∧
      (revokeGroupOp ty gid true).countP UIAction.isRunLoadAll = 1 ∧
      (grantUserOp ty uid true).countP UIAction.isLocalGrantsMutation = 0 ∧
      (revokeUserOp ty uid true).countP UIAction.isLocalGrantsMutation = 0 ∧
      (grantGroupOp ty gid true).countP UIAction.isLocalGrantsMutation = 0 ∧
      (revokeGroupOp ty gid true).countP UIAction.isLocalGrantsMutation = 0 ∧
      applyTrace env s (grantUserOp ty uid true) = loadAllRun s env.perm env.groups ∧
      applyTrace env s (revokeUserOp ty uid true) = loadAllRun s env.perm env.groups ∧
      applyTrace env s (grantGroupOp ty gid true) = loadAllRun s env.perm env.groups ∧
      applyTrace env s (revokeGroupOp ty gid true) = loadAllRun s env.perm env.groups ∧
      (∀ gf : Except Unit JVal,
        (loadAllRun s (.ok permWithUserSeven) gf).grants.modify.users = [userIdSeven]) :=
  fun _ _ _ _ _ =>
    ⟨rfl, rfl, rfl, rfl, rfl, rfl, rfl, rfl, rfl, rfl, rfl, rfl, fun _ => rfl⟩

/-- C8. Fail-soft fetch: when the permission GET fails, the completed
`loadAll` run stores the all-empty grant set (the normalization of the `{}`
fallback) and clears the loading flag, whatever the group fetch did. -/
theorem claim_C8_failsoft_fetch :
    ∀ (s : CompState) (gf : Except Unit JVal),
      (loadAllRun s (.error ()) gf).grants = emptyGrantSet ∧
      (loadAllRun s (.error ()) gf).grants = normalizePermissionsShape (.jobj []) ∧
      (loadAllRun s (.error ()) gf).loading = false :=
  fun _ _ => ⟨rfl, rfl, rfl⟩

/-- C9. Mutation failure: each failing grant/revoke trace is the HTTP request
followed by exactly one category-specific error notification — no reload, no
retry — and running the trace leaves the component state unchanged. -/
theorem claim_C9_mutation_failure_state_unchanged :
    ∀ (ty : AccessType) (uid gid : Int) (env : LoadEnv) (s : CompState),
      grantUserOp ty uid false =
        [.httpPost (userBody ty uid),
         .notifyError "Could not grant permission to the user"] ∧
      revokeUserOp ty uid false =
        [.httpDelete (userBody ty uid),
         .notifyError "Could not remove permission from the user"] ∧
      grantGroupOp ty gid false =
        [.httpPost (groupBody ty gid),
         .notifyError "Could not grant permission to the group"] ∧
      revokeGroupOp ty gid false =
        [.httpDelete (groupBody ty gid),
         .notifyError "Could not remove permission from the group"] ∧
      (grantUserOp ty uid false).countP UIAction.isNotify = 1 ∧
      (revokeUserOp ty uid false).countP UIAction.isNotify = 1 ∧
      (grantGroupOp ty gid false).countP UIAction.isNotify = 1 ∧
      (revokeGroupOp ty gid false).countP UIAction.isNotify = 1 ∧
      (grantUserOp ty uid false).countP UIAction.isRunLoadAll = 0 ∧
      (revokeUserOp ty uid false).countP UIAction.isRunLoadAll = 0 ∧
      (grantGroupOp ty gid false).countP UIAction.isRunLoadAll = 0 ∧
      (revokeGroupOp ty gid false).countP UIAction.isRunLoadAll = 0 ∧
      (grantUserOp ty uid false).countP UIAction.isHttp = 1 ∧
      (revokeUserOp ty uid false).countP UIAction.isHttp = 1 ∧
      (grantGroupOp ty gid false).countP UIAction.isHttp = 1 ∧
      (revokeGroupOp ty gid false).countP UIAction.isHttp = 1 ∧
      applyTrace env s (grantUserOp ty uid false) = s ∧
      applyTrace env s (revokeUserOp ty uid false) = s ∧
      applyTrace env s (grantGroupOp ty gid false) = s ∧
      applyTrace env s (revokeGroupOp ty gid false) = s :=
  fun _ _ _ _ _ =>
    ⟨rfl, rfl, rfl, rfl, rfl, rfl, rfl, rfl, rfl, rfl,
     rfl, rfl, rfl, rfl, rfl, rfl, rfl, rfl, rfl, rfl⟩

/-! ## Claim C10: debounced search -/

theorem debounce_collapses (wait : Nat) (e : Nat × String) (es : List (Nat × String))
    (h : withinQuiet wait (e :: es) = true) :
    debounceFires wait (e :: es) = [lastTerm (e :: es)] := by
  induction es generalizing e with
  | nil => rfl
  | cons q rest ih =>
    simp only [withinQuiet, Bool.and_eq_true, decide_eq_true_eq] at h
    show (if q.1 < e.1 + wait then debounceFires wait (q :: rest)
          else e.2 :: debounceFires wait (q :: rest)) = [lastTerm (e :: q :: rest)]
    rw [if_pos h.1]
    show debounceFires wait (q :: rest) = [lastTerm (q :: rest)]
    exact ih q h.2

/-- C10. Debounce collapsing: when every consecutive pair of keystrokes falls
strictly within the `DEBOUNCE_SEARCH_DURATION` quiet interval, exactly one
user-search call is issued and it carries the last term; all earlier pending
lookups are superseded. -/
theorem claim_C10_debounce_collapses (e : Nat × String) (es : List (Nat × String))
    (h : withinQuiet DEBOUNCE_SEARCH_DURATION (e :: es) = true) :
    issuedSearchCalls (e :: es) = [lastTerm (e :: es)] :=
  debounce_collapses DEBOUNCE_SEARCH_DURATION e es h

/-- Witness for C10 at the spec's example: typing "a", "al", "ali" 50 time
units apart issues exactly the one search call for "ali". -/
theorem claim_C10_witness :
    withinQuiet DEBOUNCE_SEARCH_DURATION [(0, "a"), (50, "al"), (100, "ali")] = true ∧
    issuedSearchCalls [(0, "a"), (50, "al"), (100, "ali")] = ["ali"] :=
  ⟨rfl, claim_C10_debounce_collapses (0, "a") [(50, "al"), (100, "ali")] rfl⟩

end PermissionsEditor
